import Mathlib

/-!
Verification of the article-generation run orchestrator (danduh/article-agent).

Shallow embedding of the TypeScript sources:
* `src/src/services/topic-loader.service.ts` — `loadTopic` and version pinning;
* the `ArticleOrchestrator` service (`generateArticle`, `regenerateArticle`,
  `cancelRun`, `executeGeneration`, `executeRegeneration`, `executeStage`,
  `updateStageStatus`, `updateRunStatus`);
* `src/src/app.controller.ts` — `getArticleRunStatus` (status projector);
* the `OrchestratorService.getGenerationStats` aggregator.

Conventions of the embedding:
* timestamps (`new Date().toISOString()`) are modelled as natural numbers,
  a single clock value `now` standing for the instant of a call;
* JavaScript number arithmetic on the small quantities involved (progress
  percentages, average durations) is modelled exactly over `Rat`/`Int`;
* stage collaborators (agents, exporter) are opaque functions supplied as a
  parameter record; each collaborator invocation is modelled as a
  `StageRun`: how long it takes (`duration`, in ms) and the promise
  settlement (`Except String α` — `error` for a rejection);
* `Promise.race` between the stage promise and the `setTimeout` rejection is
  modelled by `raced`: the timeout wins exactly when it fires strictly
  before the stage settles.  Side effects of a collaborator that keeps
  running after its race was lost (cancellation is advisory) are not
  modelled — no claim depends on them;
* persistence (`storage.saveArticleRun`, `storage.saveArticle`) and stage
  invocation are recorded in an event trace so that ordering claims
  (durability before side effects, which stage functions ran) are statable.
-/

/-- Stage status enum of `GenerationStageSchema`
(`'pending' | 'in_progress' | 'completed' | 'failed' | 'cancelled'`). -/
inductive StageStatus where
  | pending
  | in_progress
  | completed
  | failed
  | cancelled
deriving DecidableEq, Repr

/-- Run status enum of `ArticleRunSchema`
(`'pending' | 'in_progress' | 'completed' | 'failed'`). -/
inductive RunStatus where
  | pending
  | in_progress
  | completed
  | failed
deriving DecidableEq, Repr

/-- One entry of `ArticleRun.stages` (`GenerationStageSchema`). -/
structure GenerationStage where
  stage : String
  status : StageStatus
  started_at : Option Nat
  completed_at : Option Nat
  error : Option String
deriving DecidableEq, Repr

/-- The run record (`ArticleRunSchema`). -/
structure ArticleRun where
  id : String
  topic_id : String
  topic_version : String
  status : RunStatus
  stages : List GenerationStage
  article_id : Option String
  error : Option String
  created_at : Nat
  updated_at : Option Nat
  completed_at : Option Nat
deriving DecidableEq, Repr

/-- Research sub-config of a topic (`research.enabled` is all the
orchestrator reads). -/
structure ResearchConfig where
  enabled : Bool
deriving DecidableEq, Repr

/-- Output sub-config (`output.formats`). -/
structure OutputConfig where
  formats : List String
deriving DecidableEq, Repr

/-- The `models` triple of a topic. -/
structure ModelsConfig where
  outline : String
  draft : String
  refine : String
deriving DecidableEq, Repr

/-- Topic configuration — the fields the orchestrator and loader read. -/
structure TopicConfig where
  id : String
  version : String
  title : String
  research : ResearchConfig
  models : ModelsConfig
  output : OutputConfig
deriving DecidableEq, Repr

/-- A stored topic file: the parsed payload plus a flag standing for all
zod schema checks other than the version-format regex (which is modelled
explicitly by `versionValid`). -/
structure StoredTopic where
  data : TopicConfig
  schemaOk : Bool
deriving DecidableEq, Repr

/-- The topic source (local directory or API), keyed by topic id. -/
def TopicStore := List (String × StoredTopic)

/-- Split a character sequence at every dot (the separator structure of
the version regex). -/
def splitOnDot : List Char → List (List Char)
  | [] => [[]]
  | c :: rest =>
    let r := splitOnDot rest
    if c == '.' then [] :: r
    else
      match r with
      | h :: t => (c :: h) :: t
      | [] => [[c]]

/-- The zod regex `^\d+\.\d+\.\d+$` on the `version` field: exactly three
nonempty runs of digits separated by dots. -/
def versionValid (s : String) : Bool :=
  match splitOnDot s.toList with
  | [a, b, c] =>
      !a.isEmpty && a.all Char.isDigit &&
      !b.isEmpty && b.all Char.isDigit &&
      !c.isEmpty && c.all Char.isDigit
  | _ => false

/-- `validateTopicConfig` (zod `TopicConfigSchema.parse`): succeeds iff the
document is well formed and its own `version` matches the semver regex. -/
def validateTopicConfig (st : StoredTopic) : Except String TopicConfig :=
  if st.schemaOk && versionValid st.data.version then .ok st.data
  else .error "schema validation failed"

/-- `TopicLoaderService.loadTopic`: rejects `latest` up front, resolves the
file by id, validates against the schema, and rejects a version mismatch
between the request and the loaded document. -/
def loadTopic (store : TopicStore) (topicId version : String) :
    Except String TopicConfig :=
  if version == "latest" then
    .error "Version latest is not allowed. Please specify an exact version."
  else
    match List.lookup topicId store with
    | none => .error ("Topic file not found: " ++ topicId)
    | some st =>
      match validateTopicConfig st with
      | .error e => .error ("Invalid topic configuration: " ++ e)
      | .ok t =>
        if t.version != version then
          .error ("Version mismatch: requested " ++ version ++ ", got " ++ t.version)
        else
          .ok t

/-! ## Status projector (`AppController.getArticleRunStatus`) -/

/-- Return shape of `GET /articles/runs/:runId/status`. -/
structure RunStatusView where
  runId : String
  status : RunStatus
  currentStage : Option String
  progress : Int
deriving DecidableEq, Repr

/-- `Math.round` for the (nonnegative) values that arise here:
round half away from zero, i.e. `⌊q + 1/2⌋`. -/
def jsRound (q : Rat) : Int := ⌊q + 1 / 2⌋

/-- `AppController.getArticleRunStatus`: counts `completed` stages, divides
by the total (guarding the zero-stage case), scales to a percentage,
rounds, and reports the first `in_progress` stage as `currentStage`. -/
def getArticleRunStatus (run : ArticleRun) : RunStatusView :=
  let completedStages := (run.stages.filter (fun s => s.status == .completed)).length
  let totalStages := run.stages.length
  let progress : Rat :=
    if totalStages > 0 then ((completedStages : Rat) / (totalStages : Rat)) * 100 else 0
  let currentStage := (run.stages.find? (fun s => s.status == .in_progress)).map (·.stage)
  { runId := run.id
    status := run.status
    currentStage := currentStage
    progress := jsRound progress }

/-! ## Statistics aggregator (`OrchestratorService.getGenerationStats`) -/

/-- Status values of a persisted run log (`RunMetadata.status`). -/
inductive RunLogStatus where
  | running
  | completed
  | failed
deriving DecidableEq, Repr

/-- One persisted run log (`RunMetadata`), as read back by
`storage.getRunLogs()`.  Timestamps are epoch milliseconds. -/
structure RunLog where
  run_id : String
  topic_id : String
  status : RunLogStatus
  started_at : Option Int
  completed_at : Option Int
deriving DecidableEq, Repr

/-- Result shape of `getGenerationStats`. -/
structure GenerationStats where
  totalRuns : Nat
  successfulRuns : Nat
  failedRuns : Nat
  averageDuration : Rat
  byTopic : List (String × Nat)
deriving DecidableEq, Repr

/-- `stats.byTopic[t] = (stats.byTopic[t] || 0) + 1` over an association
list. -/
def bumpTopic (t : String) : List (String × Nat) → List (String × Nat)
  | [] => [(t, 1)]
  | (k, n) :: rest =>
      if k == t then (k, n + 1) :: rest else (k, n) :: bumpTopic t rest

/-- The accumulation loop of `getGenerationStats`: walks the logs once,
counting per topic and summing durations only for logs that carry both
`completed_at` and `started_at`. -/
def statsLoop : List RunLog → (List (String × Nat) × Int × Nat) → (List (String × Nat) × Int × Nat)
  | [], acc => acc
  | log :: rest, (byTopic, totalDuration, durationCount) =>
      let byTopic := bumpTopic log.topic_id byTopic
      match log.completed_at, log.started_at with
      | some c, some s => statsLoop rest (byTopic, totalDuration + (c - s), durationCount + 1)
      | _, _ => statsLoop rest (byTopic, totalDuration, durationCount)

/-- `OrchestratorService.getGenerationStats` over the logs returned by the
store: counts, per-topic totals, and the average duration in seconds over
the runs that have both timestamps. -/
def getGenerationStats (logs : List RunLog) : GenerationStats :=
  let totalRuns := logs.length
  let successfulRuns := (logs.filter (fun l => l.status == .completed)).length
  let failedRuns := (logs.filter (fun l => l.status == .failed)).length
  let (byTopic, totalDuration, durationCount) := statsLoop logs ([], 0, 0)
  let averageDuration : Rat :=
    if durationCount > 0 then (totalDuration : Rat) / (durationCount : Rat) / 1000 else 0
  { totalRuns := totalRuns
    successfulRuns := successfulRuns
    failedRuns := failedRuns
    averageDuration := averageDuration
    byTopic := byTopic }

/-! ## Orchestrator state, persistence trace, and stage execution -/

/-- Opaque citation payload (a citation's internal shape is a collaborator
concern). -/
def Citation := String
deriving instance DecidableEq, Repr for Citation

/-- Opaque outline payload. -/
def ArticleOutline := String
deriving instance DecidableEq, Repr for ArticleOutline

/-- Opaque article-content payload. -/
def ArticleContent := String
deriving instance DecidableEq, Repr for ArticleContent

/-- Opaque SEO-metadata payload. -/
def SEOMetadata := String
deriving instance DecidableEq, Repr for SEOMetadata

/-- `ResearchResultSchema` — the fields the orchestrator reads or builds. -/
structure ResearchResult where
  query : String
  sources : List Citation
  summary : String
  key_points : List String
  retrieved_at : Nat
deriving DecidableEq, Repr

/-- The article artifact threaded between stages — the fields the
orchestrator itself touches. -/
structure Article where
  id : String
  topic_id : String
  topic_version : String
  status : String
  citations : List Citation
  outline : Option ArticleOutline
  content : Option ArticleContent
  seo : Option SEOMetadata
  created_at : Nat
  updated_at : Option Nat
deriving DecidableEq, Repr

/-- Persistence/side-effect trace events: `save` is
`storage.saveArticleRun`, `invoke` marks a stage function being called
(the point from which its side effects may begin), `putArticle` is
`storage.saveArticle` issued from within a stage closure. -/
inductive StoreEvent where
  | save (r : ArticleRun)
  | invoke (stage : String)
  | putArticle (a : Article)
deriving DecidableEq, Repr

/-- Orchestrator view of one run: the record currently in the store for
this run id, plus the trace of operations performed so far. -/
structure OrchState where
  run : ArticleRun
  events : List StoreEvent
deriving DecidableEq, Repr

/-- The mutation applied to the found stage in `updateStageStatus`:
status and error are overwritten, `started_at` is stamped on
`in_progress`, `completed_at` on `completed`/`failed`. -/
def setStage (now : Nat) (status : StageStatus) (err : Option String)
    (g : GenerationStage) : GenerationStage :=
  { g with
    status := status
    error := err
    started_at := if status == .in_progress then some now else g.started_at
    completed_at :=
      if status == .completed || status == .failed then some now else g.completed_at }

/-- `run.stages.find(s => s.stage === stageName)` followed by in-place
mutation: only the first matching entry changes; no match, no change. -/
def updateFirstStage (name : String) (f : GenerationStage → GenerationStage) :
    List GenerationStage → List GenerationStage
  | [] => []
  | g :: gs => if g.stage == name then f g :: gs else g :: updateFirstStage name f gs

/-- `ArticleOrchestrator.updateStageStatus`: load the record, mutate the
named stage, bump `updated_at`, and flush the whole record via
`saveArticleRun`. -/
def updateStageStatus (now : Nat) (name : String) (status : StageStatus)
    (err : Option String) (s : OrchState) : OrchState :=
  let run2 : ArticleRun :=
    { s.run with
      stages := updateFirstStage name (setStage now status err) s.run.stages
      updated_at := some now }
  { run := run2, events := s.events ++ [.save run2] }

/-- `ArticleOrchestrator.updateRunStatus`: overwrite status and error,
stamp `completed_at` on terminal states, bump `updated_at`, flush. -/
def updateRunStatus (now : Nat) (status : RunStatus) (err : Option String)
    (s : OrchState) : OrchState :=
  let run2 : ArticleRun :=
    { s.run with
      status := status
      error := err
      updated_at := some now
      completed_at :=
        if status == .completed || status == .failed then some now else s.run.completed_at }
  { run := run2, events := s.events ++ [.save run2] }

/-- One collaborator invocation: how long its promise takes to settle
(`duration`, ms) and what it settles to. -/
structure StageRun (α : Type) where
  duration : Nat
  result : Except String α

/-- `Promise.race([stageFunction(), timeout-rejection])`: the timeout wins
exactly when it fires strictly before the stage settles, rejecting with
the `timed out` error; otherwise the stage settlement wins. -/
def raced (timeoutMs : Nat) (name : String) (sr : StageRun α) : Except String α :=
  if timeoutMs < sr.duration then .error ("Stage " ++ name ++ " timed out")
  else sr.result

/-- `ArticleOrchestrator.executeStage` with the side effects the stage
closure performs on success (`fx`, e.g. `saveArticle` during export)
made explicit: read `STAGE_TIMEOUT_MS` (default 300000), mark the stage
`in_progress` and flush, invoke the stage function racing the timeout;
on success mark `completed` and flush, on rejection or timeout mark
`failed` with the message and flush, then rethrow. -/
def executeStageFx (cfg : Option Nat) (now : Nat) (name : String)
    (sr : StageRun α) (fx : List StoreEvent) (s : OrchState) :
    OrchState × Except String α :=
  let timeoutMs := cfg.getD 300000
  let s1 := updateStageStatus now name .in_progress none s
  let s2 : OrchState := { s1 with events := s1.events ++ [.invoke name] }
  match raced timeoutMs name sr with
  | .ok v =>
      let s3 : OrchState := { s2 with events := s2.events ++ fx }
      (updateStageStatus now name .completed none s3, .ok v)
  | .error e => (updateStageStatus now name .failed (some e) s2, .error e)

/-- `executeStage` for the (common) stages whose closures perform no
orchestrator-visible persistence of their own. -/
def executeStage (cfg : Option Nat) (now : Nat) (name : String)
    (sr : StageRun α) (s : OrchState) : OrchState × Except String α :=
  executeStageFx cfg now name sr [] s

/-- The stage collaborators (agents and exporter), opaque to the
orchestrator: each call is a `StageRun` describing its settlement. -/
structure Agents where
  conductResearch : TopicConfig → StageRun ResearchResult
  generateOutline : TopicConfig → Option ResearchResult → StageRun ArticleOutline
  generateDraft : TopicConfig → Option ArticleOutline → Option ResearchResult → StageRun ArticleContent
  refineAndOptimize : TopicConfig → Option ArticleContent → List Citation → StageRun (ArticleContent × SEOMetadata)
  exportRun : Article → List String → StageRun Unit

/-- Options accepted by `generateArticle` (`GenerationOptions`).
`stageTimeout` is declared in the source interface but never read by
`executeStage`, which takes the timeout from the config service. -/
structure GenerationOptions where
  skipResearch : Bool
  dryRun : Bool
  saveOutput : Option Bool
  stageTimeout : Option Nat

/-- Stateful computation that can fail, mirroring an `async` method body
whose rejections short-circuit. -/
def ExceptS (α : Type) : Type := OrchState → OrchState × Except String α

/-- Sequencing of `await`ed steps: a rejection stops the chain. -/
def bindE (m : ExceptS α) (f : α → ExceptS β) : ExceptS β := fun s =>
  match m s with
  | (s1, .ok a) => f a s1
  | (s1, .error e) => (s1, .error e)

/-- A resolved step. -/
def pureE (a : α) : ExceptS α := fun s => (s, .ok a)

/-! ## `executeGeneration` — the fresh-generation pipeline -/

/-- Stage 1 of `executeGeneration`: research runs only when it is neither
bypassed by the caller option nor disabled by the topic config; when it
runs, its sources become the article citations. -/
def researchStep (cfg : Option Nat) (now : Nat) (topic : TopicConfig)
    (options : GenerationOptions) (agents : Agents) : ExceptS (Option ResearchResult) :=
  fun s =>
    if !options.skipResearch && topic.research.enabled then
      match executeStage cfg now "research" (agents.conductResearch topic) s with
      | (s1, .ok r) => (s1, .ok (some r))
      | (s1, .error e) => (s1, .error e)
    else (s, .ok none)

/-- The export-stage closure of `executeGeneration`: completes the article
(status `published`), saves it, and exports the configured formats unless
`dryRun` or `saveOutput === false`. -/
def exportStep (cfg : Option Nat) (now : Nat) (topic : TopicConfig)
    (options : GenerationOptions) (agents : Agents) (article : Article) :
    ExceptS Article :=
  fun s =>
    let completeArticle : Article :=
      { article with status := "published", updated_at := some now }
    match executeStageFx cfg now "export"
        (agents.exportRun completeArticle
          (if !options.dryRun && (options.saveOutput.getD true) then topic.output.formats else []))
        [.putArticle completeArticle] s with
    | (s1, .ok _) => (s1, .ok completeArticle)
    | (s1, .error e) => (s1, .error e)

/-- The `try` block of `executeGeneration`: the five stages in pipeline
order, each feeding the next, a rejection short-circuiting. -/
def generationBody (cfg : Option Nat) (now : Nat) (topic : TopicConfig)
    (options : GenerationOptions) (agents : Agents) (article0 : Article) :
    ExceptS Article :=
  bindE (researchStep cfg now topic options agents) (fun researchResult =>
  let article1 : Article :=
    match researchResult with
    | some rr => { article0 with citations := rr.sources }
    | none => article0
  bindE (executeStage cfg now "outline" (agents.generateOutline topic researchResult)) (fun outline =>
  let article2 : Article := { article1 with outline := some outline }
  bindE (executeStage cfg now "draft" (agents.generateDraft topic (some outline) researchResult)) (fun content =>
  let article3 : Article := { article2 with content := some content }
  bindE (executeStage cfg now "refine" (agents.refineAndOptimize topic (some content) article3.citations)) (fun rc =>
  let article4 : Article := { article3 with content := some rc.1, seo := some rc.2 }
  exportStep cfg now topic options agents article4))))

/-- `ArticleOrchestrator.executeGeneration`: run the pipeline; on success
mark the run `completed`; on any stage rejection mark it `failed` with the
message and rethrow (the returned `Except` is the settlement of the
background generation promise). -/
def executeGeneration (cfg : Option Nat) (now : Nat) (topic : TopicConfig)
    (options : GenerationOptions) (agents : Agents) (article0 : Article)
    (s0 : OrchState) : OrchState × Except String Unit :=
  match generationBody cfg now topic options agents article0 s0 with
  | (s, .ok _) => (updateRunStatus now .completed none s, .ok ())
  | (s, .error e) => (updateRunStatus now .failed (some e) s, .error e)

/-- The five `GenerationStage` records `generateArticle` creates: all
`pending`, then `stages[0].status = 'cancelled'` when `skipResearch`. -/
def initialStages (options : GenerationOptions) : List GenerationStage :=
  [ { stage := "research"
      status := if options.skipResearch then .cancelled else .pending
      started_at := none, completed_at := none, error := none },
    { stage := "outline", status := .pending
      started_at := none, completed_at := none, error := none },
    { stage := "draft", status := .pending
      started_at := none, completed_at := none, error := none },
    { stage := "refine", status := .pending
      started_at := none, completed_at := none, error := none },
    { stage := "export", status := .pending
      started_at := none, completed_at := none, error := none } ]

/-- `ArticleOrchestrator.generateArticle`: load and validate the topic
(rejections surface to the caller before any record exists), persist the
initial `ArticleRun`, then run `executeGeneration` in the background.
Returns the run id together with the final orchestrator state and the
settlement of the background promise. -/
def generateArticle (cfg : Option Nat) (now : Nat) (store : TopicStore)
    (agents : Agents) (runId articleId : String) (topicId version : String)
    (options : GenerationOptions) :
    Except String (String × OrchState × Except String Unit) :=
  match loadTopic store topicId version with
  | .error e => .error e
  | .ok topic =>
    let articleRun : ArticleRun :=
      { id := runId, topic_id := topicId, topic_version := version
        status := .in_progress, stages := initialStages options
        article_id := none, error := none
        created_at := now, updated_at := some now, completed_at := none }
    let s0 : OrchState := { run := articleRun, events := [.save articleRun] }
    let article0 : Article :=
      { id := articleId, topic_id := topic.id, topic_version := topic.version
        status := "draft", citations := [], outline := none, content := none
        seo := none, created_at := now, updated_at := none }
    let (s1, bg) := executeGeneration cfg now topic options agents article0 s0
    .ok (runId, s1, bg)

/-- The persistence operations `generateArticle` ever performs (none when
the topic fails to load — the run is never created). -/
def generateArticleEvents (cfg : Option Nat) (now : Nat) (store : TopicStore)
    (agents : Agents) (runId articleId : String) (topicId version : String)
    (options : GenerationOptions) : List StoreEvent :=
  match generateArticle cfg now store agents runId articleId topicId version options with
  | .error _ => []
  | .ok (_, s, _) => s.events

/-! ## `cancelRun` -/

/-- `ArticleOrchestrator.cancelRun`: terminal runs are rejected before any
mutation; otherwise the record is overwritten with `status = failed`,
`error = Cancelled by user`, a fresh `updated_at`, and saved.  The first
component is the record written to the store (`none` when nothing was
saved). -/
def cancelRun (now : Nat) (run : ArticleRun) :
    Option ArticleRun × Except String Unit :=
  if run.status == .completed || run.status == .failed then
    (none, .error "Cannot cancel run in this status")
  else
    let run2 : ArticleRun :=
      { run with status := .failed, error := some "Cancelled by user", updated_at := some now }
    (some run2, .ok ())

/-! ## `executeRegeneration` — selective re-execution -/

/-- The stage list `regenerateArticle` creates: `pending` for requested
stages, `cancelled` for the rest. -/
def regenStages (stagesToRun : List String) : List GenerationStage :=
  [ { stage := "research"
      status := if stagesToRun.contains "research" then .pending else .cancelled
      started_at := none, completed_at := none, error := none },
    { stage := "outline"
      status := if stagesToRun.contains "outline" then .pending else .cancelled
      started_at := none, completed_at := none, error := none },
    { stage := "draft"
      status := if stagesToRun.contains "draft" then .pending else .cancelled
      started_at := none, completed_at := none, error := none },
    { stage := "refine"
      status := if stagesToRun.contains "refine" then .pending else .cancelled
      started_at := none, completed_at := none, error := none },
    { stage := "export"
      status := if stagesToRun.contains "export" then .pending else .cancelled
      started_at := none, completed_at := none, error := none } ]

/-- The `try` block of `executeRegeneration`: re-run exactly the requested
stages, carrying every other input over from the existing article. -/
def regenerationBody (cfg : Option Nat) (now : Nat) (topic : TopicConfig)
    (existingArticle : Article) (stages : List String) (agents : Agents) :
    ExceptS Article :=
  bindE (fun s =>
      if stages.contains "research" && topic.research.enabled then
        match executeStage cfg now "research" (agents.conductResearch topic) s with
        | (s1, .ok r) => (s1, .ok (some r))
        | (s1, .error e) => (s1, .error e)
      else (s, .ok none))
    (fun researchRan =>
  let article1 : Article :=
    match researchRan with
    | some r => { existingArticle with citations := r.sources }
    | none => existingArticle
  let researchResult : ResearchResult :=
    match researchRan with
    | some r => r
    | none =>
      { query := topic.title ++ " research", sources := existingArticle.citations
        summary := "", key_points := [], retrieved_at := now }
  bindE (fun s =>
      if stages.contains "outline" then
        match executeStage cfg now "outline" (agents.generateOutline topic (some researchResult)) s with
        | (s1, .ok o) => (s1, .ok (some o))
        | (s1, .error e) => (s1, .error e)
      else (s, .ok none))
    (fun outlineRan =>
  let outline : Option ArticleOutline :=
    match outlineRan with
    | some o => some o
    | none => article1.outline
  let article2 : Article :=
    match outlineRan with
    | some o => { article1 with outline := some o }
    | none => article1
  bindE (fun s =>
      if stages.contains "draft" then
        match executeStage cfg now "draft" (agents.generateDraft topic outline (some researchResult)) s with
        | (s1, .ok c) => (s1, .ok (some c))
        | (s1, .error e) => (s1, .error e)
      else (s, .ok none))
    (fun draftRan =>
  let content : Option ArticleContent :=
    match draftRan with
    | some c => some c
    | none => article2.content
  let article3 : Article :=
    match draftRan with
    | some c => { article2 with content := some c }
    | none => article2
  bindE (fun s =>
      if stages.contains "refine" then
        match executeStage cfg now "refine" (agents.refineAndOptimize topic content article3.citations) s with
        | (s1, .ok rc) => (s1, .ok (some rc))
        | (s1, .error e) => (s1, .error e)
      else (s, .ok none))
    (fun refineRan =>
  let article4 : Article :=
    match refineRan with
    | some rc => { article3 with content := some rc.1, seo := some rc.2 }
    | none => article3
  bindE (fun s =>
      if stages.contains "export" then
        let articleExp : Article := { article4 with updated_at := some now }
        match executeStageFx cfg now "export"
            (agents.exportRun articleExp topic.output.formats)
            [.putArticle articleExp] s with
        | (s1, .ok _) => (s1, .ok (some articleExp))
        | (s1, .error e) => (s1, .error e)
      else (s, .ok none))
    (fun exportRan =>
  pureE (match exportRan with | some a => a | none => article4))))))

/-- `ArticleOrchestrator.executeRegeneration`: run the requested stages;
completion and failure handling identical to `executeGeneration`. -/
def executeRegeneration (cfg : Option Nat) (now : Nat) (topic : TopicConfig)
    (existingArticle : Article) (stages : List String) (agents : Agents)
    (s0 : OrchState) : OrchState × Except String Unit :=
  match regenerationBody cfg now topic existingArticle stages agents s0 with
  | (s, .ok _) => (updateRunStatus now .completed none s, .ok ())
  | (s, .error e) => (updateRunStatus now .failed (some e) s, .error e)

/-- `ArticleOrchestrator.regenerateArticle`: load the topic and the
existing article (both before any record is written), default the stage
set to `refine`+`export` when the caller passes none, persist the new
`ArticleRun` linked to the article, then run `executeRegeneration` in the
background. -/
def regenerateArticle (cfg : Option Nat) (now : Nat) (store : TopicStore)
    (agents : Agents) (runId : String) (articleId topicId version : String)
    (existing : Option Article) (stages : Option (List String)) :
    Except String (String × OrchState × Except String Unit) :=
  match loadTopic store topicId version with
  | .error e => .error e
  | .ok topic =>
    match existing with
    | none => .error ("Article not found: " ++ articleId)
    | some existingArticle =>
      let stagesToRun := stages.getD ["refine", "export"]
      let articleRun : ArticleRun :=
        { id := runId, topic_id := topicId, topic_version := version
          status := .in_progress, stages := regenStages stagesToRun
          article_id := some articleId, error := none
          created_at := now, updated_at := some now, completed_at := none }
      let s0 : OrchState := { run := articleRun, events := [.save articleRun] }
      let (s1, bg) := executeRegeneration cfg now topic existingArticle stagesToRun agents s0
      .ok (runId, s1, bg)

/-- The persistence operations `regenerateArticle` ever performs. -/
def regenerateArticleEvents (cfg : Option Nat) (now : Nat) (store : TopicStore)
    (agents : Agents) (runId : String) (articleId topicId version : String)
    (existing : Option Article) (stages : Option (List String)) : List StoreEvent :=
  match regenerateArticle cfg now store agents runId articleId topicId version existing stages with
  | .error _ => []
  | .ok (_, s, _) => s.events

/-! ## Trace predicates -/

/-- The stage functions invoked during a run, in order. -/
def invokedStages (evs : List StoreEvent) : List String :=
  evs.filterMap (fun e => match e with | .invoke s => some s | _ => none)

/-- The articles persisted (`storage.saveArticle`) during a run. -/
def savedArticles (evs : List StoreEvent) : List Article :=
  evs.filterMap (fun e => match e with | .putArticle a => some a | _ => none)

/-- The run record flushed last (the durable state a crash would leave). -/
def lastSaved (evs : List StoreEvent) : Option ArticleRun :=
  evs.foldl (fun acc e => match e with | .save r => some r | _ => acc) none

/-- Does `r` record the named stage as `in_progress` with a start time?
(The durable mark the orchestrator writes before letting the stage run.) -/
def stageMarkedRunning (r : ArticleRun) (name : String) : Bool :=
  r.stages.any (fun g => g.stage == name && g.status == .in_progress && g.started_at.isSome)

/-- One step of the flush-before-invoke check: an `invoke` is acceptable
only when the event right before it is a `save` of a record that marks
that stage `in_progress` with its start time. -/
def okPair : Option StoreEvent → StoreEvent → Bool
  | some (.save r), .invoke s => stageMarkedRunning r s
  | none, .invoke _ => false
  | some (.invoke _), .invoke _ => false
  | some (.putArticle _), .invoke _ => false
  | _, .save _ => true
  | _, .putArticle _ => true

/-- Scan of a trace checking `okPair` between every event and its
predecessor (`prev` is the event before the scanned portion). -/
def flushedFrom (prev : Option StoreEvent) : List StoreEvent → Bool
  | [] => true
  | e :: rest => okPair prev e && flushedFrom (some e) rest

/-- Every stage invocation in the trace is immediately preceded by a flush
of the record marking that stage `in_progress`: the durable stage boundary
exists before the stage function may have side effects. -/
def flushedBeforeInvoke (evs : List StoreEvent) : Bool := flushedFrom none evs

/-- The last event of a trace, with `prev` as fallback. -/
def lastEvent (prev : Option StoreEvent) : List StoreEvent → Option StoreEvent
  | [] => prev
  | e :: rest => lastEvent (some e) rest

/-- The status of the `i`-th pipeline stage of a record. -/
def stageStatusAt (r : ArticleRun) (i : Nat) : Option StageStatus :=
  (r.stages.get? i).map (·.status)

/-- Fixed pipeline order. -/
def stageNames : List String := ["research", "outline", "draft", "refine", "export"]

/-! ## Concrete fixtures for witnesses and counterexamples -/

/-- Specification-side helper: does a run log carry both timestamps? -/
def hasBothTimestamps (l : RunLog) : Bool :=
  l.completed_at.isSome && l.started_at.isSome

/-- Specification-side duration (ms) of a log that has both timestamps. -/
def logDurationMs (l : RunLog) : Int :=
  match l.completed_at, l.started_at with
  | some c, some s => c - s
  | _, _ => 0

/-- `run.stages.find(s => s.stage === name)`. -/
def findStage (r : ArticleRun) (name : String) : Option GenerationStage :=
  r.stages.find? (fun g => g.stage == name)

/-- A collaborator set where every call succeeds promptly. -/
def okAgentsFix : Agents :=
  { conductResearch := fun _ => ⟨1, .ok ⟨"q", ["c1"], "s", [], 0⟩⟩
    generateOutline := fun _ _ => ⟨1, .ok "OUT"⟩
    generateDraft := fun _ _ _ => ⟨1, .ok "DRAFT"⟩
    refineAndOptimize := fun _ _ _ => ⟨1, .ok ("refined", "seo")⟩
    exportRun := fun _ _ => ⟨1, .ok ()⟩ }

/-- A collaborator set whose outline agent rejects with `boom`. -/
def boomAgentsFix : Agents :=
  { okAgentsFix with generateOutline := fun _ _ => ⟨1, .error "boom"⟩ }

/-- A topic whose research is disabled by configuration. -/
def topicFix : TopicConfig :=
  { id := "t1", version := "1.0.0", title := "T"
    research := { enabled := false }
    models := { outline := "m1", draft := "m2", refine := "m3" }
    output := { formats := ["md"] } }

/-- A topic store holding the single valid topic `t1@1.0.0`. -/
def storeFix : TopicStore := [("t1", { data := topicFix, schemaOk := true })]

/-- Default caller options: nothing skipped, output saved. -/
def optsFix : GenerationOptions :=
  { skipResearch := false, dryRun := false, saveOutput := none, stageTimeout := none }

/-- The orchestrator state produced by running generation on `t1@1.0.0`
with the rejecting outline agent — the concrete halted-run state. -/
def c1StateFix : OrchState :=
  match generateArticle none 7 storeFix boomAgentsFix "r1" "a1" "t1" "1.0.0" optsFix with
  | .ok (_, s, _) => s
  | .error _ =>
    { run := { id := "", topic_id := "", topic_version := "", status := .pending
               stages := [], article_id := none, error := none
               created_at := 0, updated_at := none, completed_at := none }
      events := [] }

/-- A pending stage record named `n`. -/
def mkStageFix (n : String) (st : StageStatus) : GenerationStage :=
  { stage := n, status := st, started_at := none, completed_at := none, error := none }

/-- A stored run with three stages, one completed and one running — the
projector input on which exact and rounded progress differ. -/
def threeStageRunFix : ArticleRun :=
  { id := "r", topic_id := "t", topic_version := "1.0.0", status := .in_progress
    stages := [mkStageFix "a" .completed, mkStageFix "b" .in_progress, mkStageFix "c" .pending]
    article_id := none, error := none, created_at := 0, updated_at := none, completed_at := none }

/-- A run that is currently `in_progress` (spec: `running`) with no
`completed_at`. -/
def runningRunFix : ArticleRun :=
  { id := "r9", topic_id := "t1", topic_version := "1.0.0", status := .in_progress
    stages := [mkStageFix "research" .pending, mkStageFix "outline" .pending,
               mkStageFix "draft" .pending, mkStageFix "refine" .pending,
               mkStageFix "export" .pending]
    article_id := none, error := none, created_at := 0, updated_at := some 0, completed_at := none }

/-- An existing published article with citations, outline and content, as
input to regeneration. -/
def oldArticleFix : Article :=
  { id := "a1", topic_id := "t1", topic_version := "1.0.0", status := "published"
    citations := ["oldc"], outline := some "oldOutline", content := some "oldContent"
    seo := some "oldSeo", created_at := 1, updated_at := none }

/-- The per-stage status rows of every run record flushed to the store, in
order: the full persisted history of stage-status transitions. -/
def savedStageStatuses (evs : List StoreEvent) : List (List StageStatus) :=
  evs.filterMap (fun e => match e with
    | .save r => some (r.stages.map (fun g => g.status))
    | _ => none)

/-- Trace invariant: the trace passes the flush-before-invoke check, the
record currently held by the orchestrator equals the last flushed record
(no unsaved mutation), and the record keeps the five pipeline stages. -/
def GoodTrace (s : OrchState) : Prop :=
  flushedBeforeInvoke s.events = true ∧
  lastSaved s.events = some s.run ∧
  s.run.stages.map (fun g => g.stage) = stageNames

/-- A pipeline step preserves the trace invariant. -/
def PreservesGood {α : Type} (m : ExceptS α) : Prop :=
  ∀ s, GoodTrace s → GoodTrace (m s).1

/-! # Theorems -/

/-! ## Helper lemmas -/

theorem statsLoop_snd (logs : List RunLog) (bt : List (String × Nat)) (td : Int) (dc : Nat) :
    (statsLoop logs (bt, td, dc)).2 =
      (td + ((logs.filter hasBothTimestamps).map logDurationMs).sum,
       dc + (logs.filter hasBothTimestamps).length) := by
  induction logs generalizing bt td dc with
  | nil => simp [statsLoop]
  | cons l rest ih =>
    cases hc : l.completed_at <;> cases hs : l.started_at <;>
      simp [statsLoop, hc, hs, hasBothTimestamps, logDurationMs, ih] <;> ring_nf <;> simp

/-- C9: the statistics aggregation counts every log in `totalRuns`, counts
`completed` and `failed` logs in `successfulRuns`/`failedRuns`, and
averages durations only over logs carrying both `started_at` and
`completed_at` — logs without a terminal timestamp are excluded from the
average, never counted as zero duration. -/
theorem c9_generation_stats (logs : List RunLog) :
    (getGenerationStats logs).totalRuns = logs.length ∧
    (getGenerationStats logs).successfulRuns =
      (logs.filter (fun l => l.status == .completed)).length ∧
    (getGenerationStats logs).failedRuns =
      (logs.filter (fun l => l.status == .failed)).length ∧
    (getGenerationStats logs).averageDuration =
      (if (logs.filter hasBothTimestamps).length = 0 then 0 else
        (((logs.filter hasBothTimestamps).map logDurationMs).sum : Rat)
          / ((logs.filter hasBothTimestamps).length : Rat) / 1000) := by
  refine ⟨rfl, rfl, rfl, ?_⟩
  have h := statsLoop_snd logs [] 0 0
  simp only [getGenerationStats]
  rcases hsl : statsLoop logs ([], 0, 0) with ⟨bt, td, dc⟩
  rw [hsl] at h
  simp only [Prod.mk.injEq, zero_add] at h
  obtain ⟨h1, h2⟩ := h
  subst h1
  subst h2
  rcases Nat.eq_zero_or_pos (logs.filter hasBothTimestamps).length with hz | hp
  · simp [hz]
  · simp [hp, Nat.pos_iff_ne_zero.mp hp]

/-- C4 counterexample: cancelling a run that is `in_progress` (spec:
`running`) at time 42 persists a mutated record whose `completed_at` is
still unset — not the current time, contradicting the claim that cancel
sets `completed_at` to the current time. -/
theorem c4_cancel_counterexample :
    (cancelRun 42 runningRunFix).2 = .ok () ∧
    (cancelRun 42 runningRunFix).1.map (fun r => r.completed_at) = some none ∧
    (cancelRun 42 runningRunFix).1.map (fun r => r.completed_at) ≠ some (some 42) := by
  refine ⟨rfl, rfl, by decide⟩

/-- C4 (amended): cancel on a terminal (`completed`/`failed`) run rejects
with the invalid-state error and persists nothing; cancel on an
`in_progress` run persists the record with `status = failed`,
`error = Cancelled by user` and a fresh `updated_at`, leaving
`completed_at` untouched (the source never stamps it on cancellation). -/
theorem c4_cancel_run (now : Nat) (run : ArticleRun) :
    (run.status = .completed ∨ run.status = .failed →
      cancelRun now run = (none, .error "Cannot cancel run in this status")) ∧
    (run.status = .in_progress →
      cancelRun now run =
        (some { run with status := .failed, error := some "Cancelled by user",
                         updated_at := some now }, .ok ())) := by
  constructor
  · intro h
    rcases h with h | h <;> simp [cancelRun, h]
  · intro h
    simp [cancelRun, h]

/-- C4 witness: the amended theorem applied to a concrete terminal run and
a concrete running run. -/
theorem c4_cancel_run_witness :
    cancelRun 42 { runningRunFix with status := .completed } =
      (none, .error "Cannot cancel run in this status") ∧
    cancelRun 42 runningRunFix =
      (some { runningRunFix with status := .failed, error := some "Cancelled by user",
                                 updated_at := some 42 }, .ok ()) :=
  ⟨(c4_cancel_run 42 { runningRunFix with status := .completed }).1 (Or.inl rfl),
   (c4_cancel_run 42 runningRunFix).2 rfl⟩

theorem jsRound_bounds (q : Rat) (h0 : 0 ≤ q) (h1 : q ≤ 100) :
    0 ≤ jsRound q ∧ jsRound q ≤ 100 := by
  constructor
  · exact Int.floor_nonneg.mpr (by linarith)
  · have h2 : ⌊q + 1 / 2⌋ ≤ ⌊(100 : Rat) + 1 / 2⌋ := Int.floor_le_floor (by linarith)
    have h3 : ⌊(100 : Rat) + 1 / 2⌋ = 100 := by
      rw [Int.floor_eq_iff]
      norm_num
    rw [jsRound]
    omega

/-- C3 counterexample: for a stored run with three stages and one
completed, the projector returns 33, while the claimed formula
`100 * completedStageCount / totalStageCount` equals 100/3 — the code
rounds the percentage to the nearest integer. -/
theorem c3_progress_counterexample :
    (getArticleRunStatus threeStageRunFix).progress = 33 ∧
    ((getArticleRunStatus threeStageRunFix).progress : Rat) ≠ 100 * 1 / 3 := by
  have hp : (getArticleRunStatus threeStageRunFix).progress = 33 := by
    have hflt :
        (threeStageRunFix.stages.filter (fun s => s.status == StageStatus.completed)).length = 1 := rfl
    have hlen : threeStageRunFix.stages.length = 3 := rfl
    simp only [getArticleRunStatus, hflt, hlen]
    norm_num
    rw [jsRound, Int.floor_eq_iff] <;> norm_num
  refine ⟨hp, ?_⟩
  rw [hp]
  norm_num

/-- C3 (amended): the status read returns progress
`Math.round(100 * completedStageCount / totalStageCount)` — the exact
ratio rounded to the nearest integer — returns 0 for a record with zero
stages (no NaN/division error), always stays within 0..100, and reports
`currentStage` as the name of the stage currently `in_progress`
(`undefined` when none is running). -/
theorem c3_status_read (run : ArticleRun) :
    (run.stages.length = 0 →
      (getArticleRunStatus run).progress = 0 ∧
      (getArticleRunStatus run).currentStage = none) ∧
    (0 ≤ (getArticleRunStatus run).progress ∧ (getArticleRunStatus run).progress ≤ 100) ∧
    (run.stages.length ≠ 0 →
      (getArticleRunStatus run).progress =
        jsRound (100 * ((run.stages.filter fun s => s.status == StageStatus.completed).length : Rat)
          / (run.stages.length : Rat))) ∧
    ((∀ g ∈ run.stages, g.status ≠ .in_progress) →
      (getArticleRunStatus run).currentStage = none) ∧
    (∀ g ∈ run.stages, g.status = .in_progress →
      (∀ g2 ∈ run.stages, g2.status = .in_progress → g2 = g) →
      (getArticleRunStatus run).currentStage = some g.stage) := by
  have hzero : jsRound 0 = 0 := by
    rw [jsRound, Int.floor_eq_iff] <;> norm_num
  have hct : (run.stages.filter fun s => s.status == StageStatus.completed).length ≤
      run.stages.length := List.length_filter_le _ _
  refine ⟨?_, ?_, ?_, ?_, ?_⟩
  · intro h
    constructor
    · simp only [getArticleRunStatus, h]
      norm_num
      exact hzero
    · have : run.stages = [] := List.length_eq_zero.mp h
      simp [getArticleRunStatus, this]
  · rcases Nat.eq_zero_or_pos run.stages.length with h | h
    · simp only [getArticleRunStatus, h]
      norm_num
      rw [hzero]
      norm_num
    · simp only [getArticleRunStatus, h]
      have h0 : (0 : Rat) ≤
          (((run.stages.filter fun s => s.status == StageStatus.completed).length : Rat)
            / (run.stages.length : Rat)) * 100 := by
        positivity
      have h100 : (((run.stages.filter fun s => s.status == StageStatus.completed).length : Rat)
            / (run.stages.length : Rat)) * 100 ≤ 100 := by
        have hle : (((run.stages.filter fun s => s.status == StageStatus.completed).length : Rat)
            / (run.stages.length : Rat)) ≤ 1 := by
          rw [div_le_one (by exact_mod_cast h)]
          exact_mod_cast hct
        nlinarith
      have := jsRound_bounds _ h0 h100
      simpa using this
  · intro h
    have hpos : 0 < run.stages.length := Nat.pos_of_ne_zero h
    simp only [getArticleRunStatus, hpos]
    norm_num
    congr 1
    ring
  · intro h
    have : run.stages.find? (fun s => s.status == StageStatus.in_progress) = none := by
      rw [List.find?_eq_none]
      intro g hg
      simp [h g hg]
    simp [getArticleRunStatus, this]
  · intro g hg hst huniq
    have hsome : (run.stages.find? (fun s => s.status == StageStatus.in_progress)).isSome := by
      rw [List.find?_isSome]
      exact ⟨g, hg, by simp [hst]⟩
    obtain ⟨g2, hfind⟩ := Option.isSome_iff_exists.mp hsome
    have hp2 : g2.status = .in_progress := by
      have := List.find?_some hfind
      simpa using this
    have hmem := List.mem_of_find?_eq_some hfind
    have hgg : g2 = g := huniq g2 hmem hp2
    subst hgg
    simp [getArticleRunStatus, hfind]

/-- C3 witness: the amended theorem applied to the three-stage fixture:
one completed of three gives progress 33 with stage `b` reported as
current. -/
theorem c3_status_read_witness :
    (getArticleRunStatus threeStageRunFix).progress =
      jsRound (100 * ((threeStageRunFix.stages.filter
        fun s => s.status == StageStatus.completed).length : Rat)
        / (threeStageRunFix.stages.length : Rat)) ∧
    (getArticleRunStatus threeStageRunFix).currentStage = some "b" := by
  constructor
  · exact (c3_status_read threeStageRunFix).2.2.1 (by norm_num [threeStageRunFix])
  · exact (c3_status_read threeStageRunFix).2.2.2.2 (mkStageFix "b" .in_progress)
      (by simp [threeStageRunFix]) rfl
      (by
        intro g2 hg2 hst
        fin_cases hg2 <;> simp_all [mkStageFix])

theorem loadTopic_invalid (store : TopicStore) (topicId version : String)
    (hbad : List.lookup topicId store = none ∨
      (∃ st, List.lookup topicId store = some st ∧ st.schemaOk = false) ∨
      versionValid version = false) :
    ∃ e, loadTopic store topicId version = .error e := by
  unfold loadTopic
  by_cases hv : version = "latest"
  · subst hv
    simp
  · rw [if_neg (by simp [hv])]
    rcases hbad with hl | ⟨st, hl, hs⟩ | hvv
    · simp [hl]
    · simp [hl, validateTopicConfig, hs]
    · cases hl : List.lookup topicId store with
      | none => simp [hl]
      | some st =>
        cases hval : validateTopicConfig st with
        | error e => simp [hl, hval]
        | ok t =>
          have hvt : versionValid t.version = true := by
            unfold validateTopicConfig at hval
            by_cases h2 : (st.schemaOk && versionValid st.data.version) = true
            · rw [if_pos h2] at hval
              cases hval
              exact ((Bool.and_eq_true _ _).mp h2).2
            · rw [if_neg h2] at hval
              cases hval
          have hne : (t.version == version) = false := by
            by_cases he : t.version = version
            · rw [he] at hvt
              rw [hvt] at hvv
              cases hvv
            · simp [he]
          simp [hl, hval, bne, hne]

/-- C6: when the topic reference does not resolve to a valid configuration
(topic not found, schema validation failure, or a version that is
unpinned — `latest` or not matching the semver regex), both
`generateArticle` and `regenerateArticle` reject synchronously to the
caller and perform no persistence at all: no `ArticleRun` is created or
saved. -/
theorem c6_invalid_config_no_run (cfg : Option Nat) (now : Nat) (store : TopicStore)
    (agents : Agents) (runId articleId topicId version : String)
    (options : GenerationOptions) (existing : Option Article)
    (stages : Option (List String))
    (hbad : List.lookup topicId store = none ∨
      (∃ st, List.lookup topicId store = some st ∧ st.schemaOk = false) ∨
      versionValid version = false) :
    (∃ e, loadTopic store topicId version = .error e) ∧
    (∃ e, generateArticle cfg now store agents runId articleId topicId version options = .error e) ∧
    generateArticleEvents cfg now store agents runId articleId topicId version options = [] ∧
    (∃ e, regenerateArticle cfg now store agents runId articleId topicId version existing stages = .error e) ∧
    regenerateArticleEvents cfg now store agents runId articleId topicId version existing stages = [] := by
  obtain ⟨e, hl⟩ := loadTopic_invalid store topicId version hbad
  refine ⟨⟨e, hl⟩, ⟨e, ?_⟩, ?_, ⟨e, ?_⟩, ?_⟩ <;>
    simp [generateArticle, regenerateArticle, generateArticleEvents,
      regenerateArticleEvents, hl]

/-- C6 witness: the theorem applied to the concrete store at the unpinned
version `1.0` (which fails the semver regex). -/
theorem c6_invalid_config_no_run_witness :
    (∃ e, loadTopic storeFix "t1" "1.0" = .error e) ∧
    (∃ e, generateArticle none 7 storeFix okAgentsFix "r1" "a1" "t1" "1.0" optsFix = .error e) ∧
    generateArticleEvents none 7 storeFix okAgentsFix "r1" "a1" "t1" "1.0" optsFix = [] ∧
    (∃ e, regenerateArticle none 7 storeFix okAgentsFix "r1" "a1" "t1" "1.0"
      (some oldArticleFix) none = .error e) ∧
    regenerateArticleEvents none 7 storeFix okAgentsFix "r1" "a1" "t1" "1.0"
      (some oldArticleFix) none = [] :=
  c6_invalid_config_no_run none 7 storeFix okAgentsFix "r1" "a1" "t1" "1.0" optsFix
    (some oldArticleFix) none (Or.inr (Or.inr (by decide)))

theorem setStage_stage (now : Nat) (st : StageStatus) (err : Option String)
    (g : GenerationStage) : (setStage now st err g).stage = g.stage := rfl

theorem find?_updateFirstStage (name : String) (f : GenerationStage → GenerationStage)
    (hf : ∀ g, (f g).stage = g.stage) (l : List GenerationStage) (g : GenerationStage)
    (h : l.find? (fun x => x.stage == name) = some g) :
    (updateFirstStage name f l).find? (fun x => x.stage == name) = some (f g) := by
  induction l with
  | nil => simp at h
  | cons x xs ih =>
    by_cases hx : x.stage = name
    · rw [List.find?_cons_of_pos _ (by simp [hx])] at h
      cases h
      rw [updateFirstStage, if_pos (by simp [hx])]
      rw [List.find?_cons_of_pos _ (by simp [hf, hx])]
    · rw [List.find?_cons_of_neg _ (by simp [hx])] at h
      rw [updateFirstStage, if_neg (by simp [hx])]
      rw [List.find?_cons_of_neg _ (by simp [hx])]
      exact ih h

/-- C7: a stage function is raced against the configured per-stage timeout
(default 300000 ms); when the timeout fires first, the stage promise is
rejected with the `timed out` error, the StageRecord ends `failed`
carrying an error that contains `timed out`, and the whole execution is
identical to the stage function itself throwing that error — so the run
fails exactly as for a thrown stage error. -/
theorem c7_stage_timeout (cfg : Option Nat) (now : Nat) (name : String) {α : Type}
    (sr : StageRun α) (s : OrchState) (g0 : GenerationStage)
    (htimeout : cfg.getD 300000 < sr.duration)
    (hstage : findStage s.run name = some g0) :
    (executeStage cfg now name sr s).2 = .error ("Stage " ++ name ++ " timed out") ∧
    (∃ pre post, ("Stage " ++ name ++ " timed out") = pre ++ "timed out" ++ post) ∧
    (∃ g, findStage (executeStage cfg now name sr s).1.run name = some g ∧
      g.status = .failed ∧ g.error = some ("Stage " ++ name ++ " timed out") ∧
      g.completed_at = some now) ∧
    executeStage cfg now name sr s =
      executeStage cfg now name ⟨0, .error ("Stage " ++ name ++ " timed out")⟩ s := by
  have hr : raced (cfg.getD 300000) name sr = .error ("Stage " ++ name ++ " timed out") := by
    rw [raced, if_pos htimeout]
  have hr0 : raced (cfg.getD 300000) name
      (⟨0, .error ("Stage " ++ name ++ " timed out")⟩ : StageRun α) =
      .error ("Stage " ++ name ++ " timed out") := by
    rw [raced, if_neg (by simp)]
  refine ⟨?_, ?_, ?_, ?_⟩
  · simp only [executeStage, executeStageFx, hr]
  · refine ⟨"Stage " ++ name ++ " ", "", ?_⟩
    have h1 : (" " : String) ++ "timed out" = " timed out" := rfl
    simp [String.append_assoc, String.append_empty, h1]
  · simp only [executeStage, executeStageFx, hr]
    refine ⟨setStage now .failed (some ("Stage " ++ name ++ " timed out"))
      (setStage now .in_progress none g0), ?_, rfl, rfl, rfl⟩
    simp only [updateStageStatus, findStage]
    exact find?_updateFirstStage name
      (setStage now .failed (some ("Stage " ++ name ++ " timed out"))) (fun g => rfl) _ _
      (find?_updateFirstStage name (setStage now .in_progress none) (fun g => rfl) _ _ hstage)
  · simp only [executeStage, executeStageFx, hr, hr0]

/-- C7 witness: with no configured timeout the default 300000 ms applies;
a collaborator that takes 300001 ms times out, the outline StageRecord
ends `failed` with the `timed out` error, and the rejection equals the
thrown-error case. -/
theorem c7_stage_timeout_witness :
    (executeStage none 7 "outline" (⟨300001, Except.ok ()⟩ : StageRun Unit)
      { run := runningRunFix, events := [] }).2 = .error "Stage outline timed out" ∧
    (∃ g, findStage (executeStage none 7 "outline" (⟨300001, Except.ok ()⟩ : StageRun Unit)
      { run := runningRunFix, events := [] }).1.run "outline" = some g ∧
      g.status = .failed ∧ g.error = some "Stage outline timed out" ∧
      g.completed_at = some 7) := by
  have h := c7_stage_timeout none 7 "outline" (⟨300001, Except.ok ()⟩ : StageRun Unit)
    { run := runningRunFix, events := [] } (mkStageFix "outline" .pending)
    (by decide) (by decide)
  exact ⟨h.1, h.2.2.1⟩

/-- C5: at a concrete failing input (outline agent rejects with `boom`),
the orchestrator does record the failure into the persisted run record
(`status = failed`, `error = boom`) — but `executeGeneration` rethrows
after recording, so the background generation promise itself settles as a
rejection.  `generateArticle` attaches only a `.finally` handler to that
promise, so this rejection escapes the orchestrator unobserved,
contradicting the claim that the background promise never rejects. -/
theorem c5_background_rejection :
    (generateArticle none 7 storeFix boomAgentsFix "r1" "a1" "t1" "1.0.0" optsFix).map
      (fun x => (x.2.2, x.2.1.run.status, x.2.1.run.error)) =
      .ok (.error "boom", .failed, some "boom") := by
  rfl

theorem executeStageFx_ok {α : Type} (cfg : Option Nat) (now : Nat) (name : String)
    (sr : StageRun α) (fx : List StoreEvent) (v : α) (s : OrchState)
    (h : raced (cfg.getD 300000) name sr = .ok v) :
    executeStageFx cfg now name sr fx s =
      (updateStageStatus now name .completed none
        { run := (updateStageStatus now name .in_progress none s).run
          events := (updateStageStatus now name .in_progress none s).events
            ++ [.invoke name] ++ fx }, .ok v) := by
  simp only [executeStageFx, h]

theorem executeStageFx_err {α : Type} (cfg : Option Nat) (now : Nat) (name : String)
    (sr : StageRun α) (fx : List StoreEvent) (e : String) (s : OrchState)
    (h : raced (cfg.getD 300000) name sr = .error e) :
    executeStageFx cfg now name sr fx s =
      (updateStageStatus now name .failed (some e)
        { run := (updateStageStatus now name .in_progress none s).run
          events := (updateStageStatus now name .in_progress none s).events
            ++ [.invoke name] }, .error e) := by
  simp only [executeStageFx, h]

theorem executeStage_ok {α : Type} (cfg : Option Nat) (now : Nat) (name : String)
    (sr : StageRun α) (v : α) (s : OrchState)
    (h : raced (cfg.getD 300000) name sr = .ok v) :
    executeStage cfg now name sr s =
      (updateStageStatus now name .completed none
        { run := (updateStageStatus now name .in_progress none s).run
          events := (updateStageStatus now name .in_progress none s).events
            ++ [.invoke name] }, .ok v) := by
  rw [executeStage, executeStageFx_ok cfg now name sr [] v s h]
  simp only [List.append_nil]

theorem executeStage_err {α : Type} (cfg : Option Nat) (now : Nat) (name : String)
    (sr : StageRun α) (e : String) (s : OrchState)
    (h : raced (cfg.getD 300000) name sr = .error e) :
    executeStage cfg now name sr s =
      (updateStageStatus now name .failed (some e)
        { run := (updateStageStatus now name .in_progress none s).run
          events := (updateStageStatus now name .in_progress none s).events
            ++ [.invoke name] }, .error e) := by
  rw [executeStage, executeStageFx_err cfg now name sr [] e s h]

/-- C2 counterexample: concrete topic with `research.enabled = false` and
default options; all other collaborators succeed.  The run completes, but
the research StageRecord ends `pending` (there is no `skipped` status in
this pipeline, and the record is never touched), and the reported
progress is 80 — not 100 — because only four of five stages count as
completed. -/
theorem c2_research_disabled_counterexample :
    (generateArticle none 7 storeFix okAgentsFix "r1" "a1" "t1" "1.0.0" optsFix).map
      (fun x => (x.2.2, x.2.1.run.status, stageStatusAt x.2.1.run 0)) =
      .ok (.ok (), .completed, some .pending) ∧
    (generateArticle none 7 storeFix okAgentsFix "r1" "a1" "t1" "1.0.0" optsFix).map
      (fun x => (getArticleRunStatus x.2.1.run).progress) = .ok 80 ∧
    (80 : Int) ≠ 100 := by
  refine ⟨rfl, ?_, by decide⟩
  have h : (generateArticle none 7 storeFix okAgentsFix "r1" "a1" "t1" "1.0.0" optsFix).map
      (fun x => (getArticleRunStatus x.2.1.run).progress) =
      .ok (jsRound ((4 : Rat) / 5 * 100)) := rfl
  rw [h]
  have h80 : jsRound ((4 : Rat) / 5 * 100) = 80 := by
    rw [jsRound, Int.floor_eq_iff] <;> norm_num
  rw [h80]

/-- C2 (amended): when research is bypassed by the `skipResearch` option or
disabled by the topic config and every other stage succeeds within its
timeout, the run completes, the research StageRecord ends `cancelled`
(when `skipResearch` pre-marked it) or stays `pending` (when only the
config disables research), and the reported progress reaches 80 — four
completed stages of five — never 100. -/
theorem c2_research_disabled_run (cfg : Option Nat) (now : Nat) (store : TopicStore)
    (agents : Agents) (runId articleId topicId version : String)
    (options : GenerationOptions) (topic : TopicConfig)
    (hTopic : loadTopic store topicId version = .ok topic)
    (hOff : options.skipResearch = true ∨ topic.research.enabled = false)
    (hOutline : ∀ rr, ∃ v, raced (cfg.getD 300000) "outline" (agents.generateOutline topic rr) = .ok v)
    (hDraft : ∀ o rr, ∃ v, raced (cfg.getD 300000) "draft" (agents.generateDraft topic o rr) = .ok v)
    (hRefine : ∀ c cit, ∃ v, raced (cfg.getD 300000) "refine" (agents.refineAndOptimize topic c cit) = .ok v)
    (hExport : ∀ a f, raced (cfg.getD 300000) "export" (agents.exportRun a f) = .ok ()) :
    ∃ s, generateArticle cfg now store agents runId articleId topicId version options =
        .ok (runId, s, .ok ()) ∧
      s.run.status = .completed ∧
      stageStatusAt s.run 0 =
        some (if options.skipResearch then StageStatus.cancelled else StageStatus.pending) ∧
      (getArticleRunStatus s.run).progress = 80 := by
  have hcond : (!options.skipResearch && topic.research.enabled) = false := by
    rcases hOff with h | h <;> simp [h]
  obtain ⟨o, ho⟩ := hOutline none
  obtain ⟨d, hd⟩ := hDraft (some o) none
  obtain ⟨rc, hrc⟩ := hRefine (some d) []
  simp only [generateArticle, hTopic, executeGeneration, generationBody, researchStep,
    exportStep, bindE, pureE, hcond, Bool.false_eq_true, if_false,
    executeStage, executeStageFx, ho, hd, hrc, hExport, List.append_nil]
  refine ⟨_, rfl, rfl, ?_, ?_⟩
  · simp only [updateRunStatus, updateStageStatus, stageStatusAt, initialStages,
      updateFirstStage, setStage]
    rfl
  · have h80 : jsRound ((4 : Rat) / 5 * 100) = 80 := by
      rw [jsRound, Int.floor_eq_iff] <;> norm_num
    cases hb : options.skipResearch <;>
      (simp only [getArticleRunStatus, updateRunStatus, updateStageStatus, initialStages,
        updateFirstStage, setStage, hb]
       norm_num
       exact h80)

/-- C2 witness: the amended theorem applied to the concrete topic with
research disabled and promptly-succeeding collaborators. -/
theorem c2_research_disabled_run_witness :
    ∃ s, generateArticle none 7 storeFix okAgentsFix "r1" "a1" "t1" "1.0.0" optsFix =
        .ok ("r1", s, .ok ()) ∧
      s.run.status = .completed ∧
      stageStatusAt s.run 0 =
        some (if optsFix.skipResearch then StageStatus.cancelled else StageStatus.pending) ∧
      (getArticleRunStatus s.run).progress = 80 :=
  c2_research_disabled_run none 7 storeFix okAgentsFix "r1" "a1" "t1" "1.0.0" optsFix
    topicFix rfl (Or.inr rfl)
    (fun rr => ⟨"OUT", rfl⟩)
    (fun o rr => ⟨"DRAFT", rfl⟩)
    (fun c cit => ⟨("refined", "seo"), rfl⟩)
    (fun a f => rfl)

/-! ## Flush-before-invoke invariant (C8 infrastructure) -/

theorem flushedFrom_append (p : Option StoreEvent) (xs ys : List StoreEvent) :
    flushedFrom p (xs ++ ys) =
      (flushedFrom p xs && flushedFrom (lastEvent p xs) ys) := by
  induction xs generalizing p with
  | nil => simp [flushedFrom, lastEvent]
  | cons e rest ih => simp [flushedFrom, lastEvent, ih, Bool.and_assoc]

theorem lastEvent_append_singleton (p : Option StoreEvent) (xs : List StoreEvent)
    (e : StoreEvent) : lastEvent p (xs ++ [e]) = some e := by
  induction xs generalizing p with
  | nil => rfl
  | cons x rest ih => simp [lastEvent, ih]

theorem lastSaved_append_save (xs : List StoreEvent) (r : ArticleRun) :
    lastSaved (xs ++ [.save r]) = some r := by
  simp [lastSaved, List.foldl_append]

theorem okPair_save (p : Option StoreEvent) (r : ArticleRun) :
    okPair p (.save r) = true := by
  cases p with
  | none => rfl
  | some e => cases e <;> rfl

theorem okPair_putArticle (p : Option StoreEvent) (a : Article) :
    okPair p (.putArticle a) = true := by
  cases p with
  | none => rfl
  | some e => cases e <;> rfl

theorem flushedFrom_no_invoke (p : Option StoreEvent) (fx : List StoreEvent)
    (hfx : ∀ e ∈ fx, ∀ s, e ≠ .invoke s) : flushedFrom p fx = true := by
  induction fx generalizing p with
  | nil => rfl
  | cons e rest ih =>
    have he : okPair p e = true := by
      cases e with
      | save r => exact okPair_save p r
      | putArticle a => exact okPair_putArticle p a
      | invoke s => exact absurd rfl (hfx (.invoke s) (by simp) s)
    simp [flushedFrom, he, ih (some e) (fun e2 h2 s2 => hfx e2 (by simp [h2]) s2)]

theorem map_stage_updateFirstStage (name : String) (f : GenerationStage → GenerationStage)
    (hf : ∀ g, (f g).stage = g.stage) (l : List GenerationStage) :
    (updateFirstStage name f l).map (fun g => g.stage) = l.map (fun g => g.stage) := by
  induction l with
  | nil => rfl
  | cons x xs ih =>
    by_cases hx : x.stage = name
    · simp [updateFirstStage, hx, hf]
    · simp [updateFirstStage, hx, ih]

theorem any_marked_update (now : Nat) (nm : String) (l : List GenerationStage)
    (h : nm ∈ l.map (fun g => g.stage)) :
    (updateFirstStage nm (setStage now .in_progress none) l).any
      (fun g => g.stage == nm && g.status == .in_progress && g.started_at.isSome) = true := by
  induction l with
  | nil => simp at h
  | cons x xs ih =>
    by_cases hx : x.stage = nm
    · simp [updateFirstStage, hx, setStage, List.any_cons]
    · have h2 : nm ∈ xs.map (fun g => g.stage) := by
        simp only [List.map_cons, List.mem_cons] at h
        rcases h with h | h
        · exact absurd h.symm hx
        · exact h
      have := ih h2
      rw [updateFirstStage, if_neg (by simp [hx])]
      simp only [List.any_cons]
      rw [this]
      simp

theorem lastSaved_append_invoke (xs : List StoreEvent) (nm : String) :
    lastSaved (xs ++ [.invoke nm]) = lastSaved xs := by
  simp [lastSaved, List.foldl_append]

theorem foldl_lastSaved_no_save (acc : Option ArticleRun) (fx : List StoreEvent)
    (hfx : ∀ e ∈ fx, ∀ r, e ≠ .save r) :
    fx.foldl (fun acc e => match e with | .save r => some r | _ => acc) acc = acc := by
  induction fx generalizing acc with
  | nil => rfl
  | cons e rest ih =>
    have htail : ∀ e2 ∈ rest, ∀ r2, e2 ≠ .save r2 :=
      fun e2 h2 r2 => hfx e2 (by simp [h2]) r2
    cases e with
    | save r => exact absurd rfl (hfx _ (by simp) r)
    | invoke s2 =>
      simp only [List.foldl_cons]
      exact ih acc htail
    | putArticle a =>
      simp only [List.foldl_cons]
      exact ih acc htail

theorem lastSaved_append_no_save (xs fx : List StoreEvent)
    (hfx : ∀ e ∈ fx, ∀ r, e ≠ .save r) :
    lastSaved (xs ++ fx) = lastSaved xs := by
  rw [lastSaved, List.foldl_append]
  exact foldl_lastSaved_no_save _ fx hfx

theorem updateStageStatus_good (now : Nat) (name : String) (status : StageStatus)
    (err : Option String) (s : OrchState) (hs : GoodTrace s) :
    GoodTrace (updateStageStatus now name status err s) := by
  obtain ⟨h1, h2, h3⟩ := hs
  have h1f : flushedFrom none s.events = true := h1
  refine ⟨?_, ?_, ?_⟩
  · show flushedFrom none (s.events ++ [_]) = true
    rw [flushedFrom_append, h1f]
    simp [flushedFrom, okPair_save]
  · exact lastSaved_append_save _ _
  · show (updateFirstStage name (setStage now status err) s.run.stages).map _ = _
    rw [map_stage_updateFirstStage name (setStage now status err) (fun g => rfl), h3]

theorem updateRunStatus_good (now : Nat) (status : RunStatus) (err : Option String)
    (s : OrchState) (hs : GoodTrace s) :
    GoodTrace (updateRunStatus now status err s) := by
  obtain ⟨h1, h2, h3⟩ := hs
  have h1f : flushedFrom none s.events = true := h1
  refine ⟨?_, ?_, ?_⟩
  · show flushedFrom none (s.events ++ [_]) = true
    rw [flushedFrom_append, h1f]
    simp [flushedFrom, okPair_save]
  · exact lastSaved_append_save _ _
  · exact h3

theorem executeStageFx_good {α : Type} (cfg : Option Nat) (now : Nat) (nm : String)
    (sr : StageRun α) (fx : List StoreEvent)
    (hnm : nm ∈ stageNames)
    (hfxI : ∀ e ∈ fx, ∀ s2, e ≠ .invoke s2)
    (hfxS : ∀ e ∈ fx, ∀ r, e ≠ .save r) :
    PreservesGood (executeStageFx cfg now nm sr fx) := by
  intro s hs
  have hs1 : GoodTrace (updateStageStatus now nm .in_progress none s) :=
    updateStageStatus_good now nm .in_progress none s hs
  obtain ⟨g1, g2, g3⟩ := hs1
  have g1f : flushedFrom none (updateStageStatus now nm .in_progress none s).events = true := g1
  have hmark : stageMarkedRunning (updateStageStatus now nm .in_progress none s).run nm = true := by
    show ((updateStageStatus now nm .in_progress none s).run.stages).any _ = true
    show (updateFirstStage nm (setStage now .in_progress none) s.run.stages).any _ = true
    exact any_marked_update now nm s.run.stages (by rw [hs.2.2]; exact hnm)
  have hsaveform : (updateStageStatus now nm .in_progress none s).events =
      s.events ++ [.save (updateStageStatus now nm .in_progress none s).run] := rfl
  have hs2 : GoodTrace
      { run := (updateStageStatus now nm .in_progress none s).run
        events := (updateStageStatus now nm .in_progress none s).events ++ [.invoke nm] } := by
    refine ⟨?_, ?_, g3⟩
    · show flushedFrom none (_ ++ [StoreEvent.invoke nm]) = true
      rw [flushedFrom_append, g1f, hsaveform, lastEvent_append_singleton]
      simp only [flushedFrom, okPair, hmark, Bool.and_true, Bool.true_and]
    · show lastSaved (_ ++ [StoreEvent.invoke nm]) = _
      rw [lastSaved_append_invoke]
      exact g2
  obtain ⟨k1, k2, k3⟩ := hs2
  have k1f : flushedFrom none
      ((updateStageStatus now nm .in_progress none s).events ++ [.invoke nm]) = true := k1
  cases hr : raced (cfg.getD 300000) nm sr with
  | ok v =>
    rw [executeStageFx_ok cfg now nm sr fx v s hr]
    refine updateStageStatus_good now nm .completed none _ ⟨?_, ?_, k3⟩
    · show flushedFrom none
        ((updateStageStatus now nm .in_progress none s).events ++ [.invoke nm] ++ fx) = true
      rw [flushedFrom_append, k1f, flushedFrom_no_invoke _ fx hfxI]
      rfl
    · show lastSaved
        ((updateStageStatus now nm .in_progress none s).events ++ [.invoke nm] ++ fx) = _
      rw [lastSaved_append_no_save _ fx hfxS, lastSaved_append_invoke]
      exact g2
  | error e =>
    rw [executeStageFx_err cfg now nm sr fx e s hr]
    exact updateStageStatus_good now nm .failed (some e) _ ⟨k1, k2, k3⟩

theorem executeStage_good {α : Type} (cfg : Option Nat) (now : Nat) (nm : String)
    (sr : StageRun α) (hnm : nm ∈ stageNames) :
    PreservesGood (executeStage cfg now nm sr) := by
  intro s hs
  exact executeStageFx_good cfg now nm sr [] hnm (by simp) (by simp) s hs

theorem pureE_good {α : Type} (a : α) : PreservesGood (pureE a) := fun _ hs => hs

theorem bindE_good {α β : Type} (m : ExceptS α) (f : α → ExceptS β)
    (hm : PreservesGood m) (hf : ∀ a, PreservesGood (f a)) :
    PreservesGood (bindE m f) := by
  intro s hs
  have hm1 := hm s hs
  rw [bindE]
  rcases hme : m s with ⟨s1, r⟩
  rw [hme] at hm1
  cases r with
  | ok a => exact hf a s1 hm1
  | error e => exact hm1

theorem researchStep_good (cfg : Option Nat) (now : Nat) (topic : TopicConfig)
    (options : GenerationOptions) (agents : Agents) :
    PreservesGood (researchStep cfg now topic options agents) := by
  intro s hs
  rw [researchStep]
  by_cases hc : (!options.skipResearch && topic.research.enabled) = true
  · rw [if_pos hc]
    have hm := executeStage_good cfg now "research" (agents.conductResearch topic)
      (by simp [stageNames]) s hs
    rcases hme : executeStage cfg now "research" (agents.conductResearch topic) s with ⟨s1, r⟩
    rw [hme] at hm
    cases r with
    | ok a => exact hm
    | error e => exact hm
  · rw [if_neg hc]
    exact hs

theorem executeStageFx_putArticle_good {α : Type} (cfg : Option Nat) (now : Nat)
    (nm : String) (sr : StageRun α) (a : Article) (hnm : nm ∈ stageNames) :
    PreservesGood (executeStageFx cfg now nm sr [.putArticle a]) :=
  executeStageFx_good cfg now nm sr [.putArticle a] hnm
    (by rintro e he s2; simp at he; simp [he])
    (by rintro e he r; simp at he; simp [he])

theorem exportStep_good (cfg : Option Nat) (now : Nat) (topic : TopicConfig)
    (options : GenerationOptions) (agents : Agents) (article : Article) :
    PreservesGood (exportStep cfg now topic options agents article) := by
  intro s hs
  rw [exportStep]
  have hm := executeStageFx_putArticle_good cfg now "export"
    (agents.exportRun { article with status := "published", updated_at := some now }
      (if (!options.dryRun && options.saveOutput.getD true) = true then
        topic.output.formats else []))
    { article with status := "published", updated_at := some now }
    (by simp [stageNames]) s hs
  rcases hme : executeStageFx cfg now "export"
    (agents.exportRun { article with status := "published", updated_at := some now }
      (if (!options.dryRun && options.saveOutput.getD true) = true then
        topic.output.formats else []))
    [.putArticle { article with status := "published", updated_at := some now }] s with ⟨s1, r⟩
  rw [hme] at hm
  cases r with
  | ok a => exact hm
  | error e => exact hm

theorem generationBody_good (cfg : Option Nat) (now : Nat) (topic : TopicConfig)
    (options : GenerationOptions) (agents : Agents) (article0 : Article) :
    PreservesGood (generationBody cfg now topic options agents article0) := by
  rw [generationBody]
  refine bindE_good _ _ (researchStep_good cfg now topic options agents) (fun rr => ?_)
  refine bindE_good _ _ (executeStage_good cfg now "outline" _ (by simp [stageNames])) (fun o => ?_)
  refine bindE_good _ _ (executeStage_good cfg now "draft" _ (by simp [stageNames])) (fun d => ?_)
  refine bindE_good _ _ (executeStage_good cfg now "refine" _ (by simp [stageNames])) (fun rc => ?_)
  exact exportStep_good cfg now topic options agents _

theorem executeGeneration_good (cfg : Option Nat) (now : Nat) (topic : TopicConfig)
    (options : GenerationOptions) (agents : Agents) (article0 : Article)
    (s0 : OrchState) (hs : GoodTrace s0) :
    GoodTrace (executeGeneration cfg now topic options agents article0 s0).1 := by
  rw [executeGeneration]
  have hb := generationBody_good cfg now topic options agents article0 s0 hs
  rcases hbe : generationBody cfg now topic options agents article0 s0 with ⟨s1, r⟩
  rw [hbe] at hb
  cases r with
  | ok a => exact updateRunStatus_good now .completed none s1 hb
  | error e => exact updateRunStatus_good now .failed (some e) s1 hb

theorem executeStage_good_eq {α : Type} (cfg : Option Nat) (now : Nat) (nm : String)
    (sr : StageRun α) (s s1 : OrchState) (r : Except String α)
    (hnm : nm ∈ stageNames) (heq : executeStage cfg now nm sr s = (s1, r))
    (hs : GoodTrace s) : GoodTrace s1 := by
  have hm := executeStage_good cfg now nm sr hnm s hs
  rw [heq] at hm
  exact hm

theorem executeStageFx_putArticle_good_eq {α : Type} (cfg : Option Nat) (now : Nat)
    (nm : String) (sr : StageRun α) (a : Article) (s s1 : OrchState) (r : Except String α)
    (hnm : nm ∈ stageNames)
    (heq : executeStageFx cfg now nm sr [.putArticle a] s = (s1, r))
    (hs : GoodTrace s) : GoodTrace s1 := by
  have hm := executeStageFx_putArticle_good cfg now nm sr a hnm s hs
  rw [heq] at hm
  exact hm

theorem regenerationBody_good (cfg : Option Nat) (now : Nat) (topic : TopicConfig)
    (existingArticle : Article) (stages : List String) (agents : Agents) :
    PreservesGood (regenerationBody cfg now topic existingArticle stages agents) := by
  rw [regenerationBody]
  refine bindE_good _ _ ?_ (fun rr => ?_)
  · intro s hs
    beta_reduce
    split
    · split
      all_goals rename_i heq
      all_goals exact executeStage_good_eq _ _ _ _ _ _ _ (by simp [stageNames]) heq hs
    · exact hs
  refine bindE_good _ _ ?_ (fun o => ?_)
  · intro s hs
    beta_reduce
    split
    · split
      all_goals rename_i heq
      all_goals exact executeStage_good_eq _ _ _ _ _ _ _ (by simp [stageNames]) heq hs
    · exact hs
  refine bindE_good _ _ ?_ (fun d => ?_)
  · intro s hs
    beta_reduce
    split
    · split
      all_goals rename_i heq
      all_goals exact executeStage_good_eq _ _ _ _ _ _ _ (by simp [stageNames]) heq hs
    · exact hs
  refine bindE_good _ _ ?_ (fun rc => ?_)
  · intro s hs
    beta_reduce
    split
    · split
      all_goals rename_i heq
      all_goals exact executeStage_good_eq _ _ _ _ _ _ _ (by simp [stageNames]) heq hs
    · exact hs
  refine bindE_good _ _ ?_ (fun ex => pureE_good _)
  · intro s hs
    dsimp only
    split
    · split
      all_goals rename_i heq
      all_goals exact executeStageFx_putArticle_good_eq _ _ _ _ _ _ _ _ (by simp [stageNames]) heq hs
    · exact hs

theorem executeRegeneration_good (cfg : Option Nat) (now : Nat) (topic : TopicConfig)
    (existingArticle : Article) (stages : List String) (agents : Agents)
    (s0 : OrchState) (hs : GoodTrace s0) :
    GoodTrace (executeRegeneration cfg now topic existingArticle stages agents s0).1 := by
  rw [executeRegeneration]
  have hb := regenerationBody_good cfg now topic existingArticle stages agents s0 hs
  rcases hbe : regenerationBody cfg now topic existingArticle stages agents s0 with ⟨s1, r⟩
  rw [hbe] at hb
  cases r with
  | ok a => exact updateRunStatus_good now .completed none s1 hb
  | error e => exact updateRunStatus_good now .failed (some e) s1 hb

/-- C8: during both fresh generation and regeneration, every run-record
mutation the orchestrator makes is flushed to the store via save before
the next stage function may produce side effects: every `invoke` in the
persistence trace is immediately preceded by a save of the record marking
that stage `in_progress` with its start time, and at the end the record
held by the orchestrator equals the last flushed record — so a crash
mid-pipeline always leaves a durably recorded whole-stage boundary. -/
theorem c8_flush_before_invoke (cfg : Option Nat) (now : Nat) (store : TopicStore)
    (agents : Agents) (runId articleId topicId version : String)
    (options : GenerationOptions) (existing : Option Article)
    (stagesArg : Option (List String)) :
    (∀ rid s bg,
      generateArticle cfg now store agents runId articleId topicId version options =
        .ok (rid, s, bg) →
      flushedBeforeInvoke s.events = true ∧ lastSaved s.events = some s.run) ∧
    (∀ rid s bg,
      regenerateArticle cfg now store agents runId articleId topicId version
        existing stagesArg = .ok (rid, s, bg) →
      flushedBeforeInvoke s.events = true ∧ lastSaved s.events = some s.run) := by
  constructor
  · intro rid s bg hg
    cases hload : loadTopic store topicId version with
    | error e => simp [generateArticle, hload] at hg
    | ok topic =>
      simp only [generateArticle, hload] at hg
      rcases hex : executeGeneration cfg now topic options agents
        { id := articleId, topic_id := topic.id, topic_version := topic.version
          status := "draft", citations := [], outline := none, content := none
          seo := none, created_at := now, updated_at := none }
        { run :=
            { id := runId, topic_id := topicId, topic_version := version
              status := .in_progress, stages := initialStages options
              article_id := none, error := none
              created_at := now, updated_at := some now, completed_at := none }
          events :=
            [.save
              { id := runId, topic_id := topicId, topic_version := version
                status := .in_progress, stages := initialStages options
                article_id := none, error := none
                created_at := now, updated_at := some now, completed_at := none }] }
        with ⟨s1, bg1⟩
      rw [hex] at hg
      have hgood := executeGeneration_good cfg now topic options agents
        { id := articleId, topic_id := topic.id, topic_version := topic.version
          status := "draft", citations := [], outline := none, content := none
          seo := none, created_at := now, updated_at := none }
        { run :=
            { id := runId, topic_id := topicId, topic_version := version
              status := .in_progress, stages := initialStages options
              article_id := none, error := none
              created_at := now, updated_at := some now, completed_at := none }
          events :=
            [.save
              { id := runId, topic_id := topicId, topic_version := version
                status := .in_progress, stages := initialStages options
                article_id := none, error := none
                created_at := now, updated_at := some now, completed_at := none }] }
        ⟨rfl, rfl, rfl⟩
      rw [hex] at hgood
      obtain ⟨rfl, rfl, rfl⟩ : rid = runId ∧ s = s1 ∧ bg = bg1 := by
        cases hg
        exact ⟨rfl, rfl, rfl⟩
      exact ⟨hgood.1, hgood.2.1⟩
  · intro rid s bg hg
    cases hload : loadTopic store topicId version with
    | error e => simp [regenerateArticle, hload] at hg
    | ok topic =>
      cases existing with
      | none => simp [regenerateArticle, hload] at hg
      | some existingArticle =>
        simp only [regenerateArticle, hload] at hg
        rcases hex : executeRegeneration cfg now topic existingArticle
          (stagesArg.getD ["refine", "export"]) agents
          { run :=
              { id := runId, topic_id := topicId, topic_version := version
                status := .in_progress, stages := regenStages (stagesArg.getD ["refine", "export"])
                article_id := some articleId, error := none
                created_at := now, updated_at := some now, completed_at := none }
            events :=
              [.save
                { id := runId, topic_id := topicId, topic_version := version
                  status := .in_progress, stages := regenStages (stagesArg.getD ["refine", "export"])
                  article_id := some articleId, error := none
                  created_at := now, updated_at := some now, completed_at := none }] }
          with ⟨s1, bg1⟩
        rw [hex] at hg
        have hgood := executeRegeneration_good cfg now topic existingArticle
          (stagesArg.getD ["refine", "export"]) agents
          { run :=
              { id := runId, topic_id := topicId, topic_version := version
                status := .in_progress, stages := regenStages (stagesArg.getD ["refine", "export"])
                article_id := some articleId, error := none
                created_at := now, updated_at := some now, completed_at := none }
            events :=
              [.save
                { id := runId, topic_id := topicId, topic_version := version
                  status := .in_progress, stages := regenStages (stagesArg.getD ["refine", "export"])
                  article_id := some articleId, error := none
                  created_at := now, updated_at := some now, completed_at := none }] }
          ⟨rfl, rfl, rfl⟩
        rw [hex] at hgood
        obtain ⟨rfl, rfl, rfl⟩ : rid = runId ∧ s = s1 ∧ bg = bg1 := by
          cases hg
          exact ⟨rfl, rfl, rfl⟩
        exact ⟨hgood.1, hgood.2.1⟩

/-- C8 witness: the theorem applied to the concrete fixtures, for both a
fresh generation and a default regeneration. -/
theorem c8_flush_before_invoke_witness :
    (∃ s bg,
      generateArticle none 7 storeFix okAgentsFix "r1" "a1" "t1" "1.0.0" optsFix =
        .ok ("r1", s, bg) ∧
      flushedBeforeInvoke s.events = true ∧ lastSaved s.events = some s.run) ∧
    (∃ s bg,
      regenerateArticle none 9 storeFix okAgentsFix "r2" "a1" "t1" "1.0.0"
        (some oldArticleFix) none = .ok ("r2", s, bg) ∧
      flushedBeforeInvoke s.events = true ∧ lastSaved s.events = some s.run) := by
  constructor
  · obtain ⟨s, bg, hgen⟩ :
        ∃ s bg, generateArticle none 7 storeFix okAgentsFix "r1" "a1" "t1" "1.0.0" optsFix =
          .ok ("r1", s, bg) := ⟨_, _, rfl⟩
    have h := (c8_flush_before_invoke none 7 storeFix okAgentsFix "r1" "a1" "t1" "1.0.0"
      optsFix (some oldArticleFix) none).1 "r1" s bg hgen
    exact ⟨s, bg, hgen, h.1, h.2⟩
  · obtain ⟨s, bg, hgen⟩ :
        ∃ s bg, regenerateArticle none 9 storeFix okAgentsFix "r2" "a1" "t1" "1.0.0"
          (some oldArticleFix) none = .ok ("r2", s, bg) := ⟨_, _, rfl⟩
    have h := (c8_flush_before_invoke none 9 storeFix okAgentsFix "r2" "a1" "t1" "1.0.0"
      optsFix (some oldArticleFix) none).2 "r2" s bg hgen
    exact ⟨s, bg, hgen, h.1, h.2⟩

/-- C10: a regeneration call with the stages argument omitted defaults to
exactly refine+export: the new RunRecord is created with refine and
export `pending` and research/outline/draft `cancelled`, only the refine
and export stage functions are invoked, the refine collaborator is fed
the existing article's content and citations, and the article saved at
export keeps the existing outline and citations with only the refined
content and SEO metadata replaced. -/
theorem c10_regenerate_default (cfg : Option Nat) (now : Nat) (store : TopicStore)
    (agents : Agents) (runId articleId topicId version : String)
    (art : Article) (topic : TopicConfig) (rc : ArticleContent × SEOMetadata)
    (hTopic : loadTopic store topicId version = .ok topic)
    (hRefine : raced (cfg.getD 300000) "refine"
      (agents.refineAndOptimize topic art.content art.citations) = .ok rc)
    (hExport : ∀ a f, raced (cfg.getD 300000) "export" (agents.exportRun a f) = .ok ()) :
    (regenStages ["refine", "export"]).map (fun g => (g.stage, g.status)) =
      [("research", .cancelled), ("outline", .cancelled), ("draft", .cancelled),
       ("refine", .pending), ("export", .pending)] ∧
    ∃ s, regenerateArticle cfg now store agents runId articleId topicId version
        (some art) none = .ok (runId, s, .ok ()) ∧
      (∃ r0, s.events.head? = some (.save r0) ∧
        r0.stages = regenStages ["refine", "export"] ∧ r0.article_id = some articleId) ∧
      invokedStages s.events = ["refine", "export"] ∧
      savedArticles s.events =
        [{ art with content := some rc.1, seo := some rc.2, updated_at := some now }] ∧
      s.run.status = .completed ∧
      s.run.stages.map (fun g => g.status) =
        [.cancelled, .cancelled, .cancelled, .completed, .completed] := by
  refine ⟨rfl, ?_⟩
  have hc1 : (["refine", "export"].contains "research") = false := rfl
  have hc2 : (["refine", "export"].contains "outline") = false := rfl
  have hc3 : (["refine", "export"].contains "draft") = false := rfl
  have hc4 : (["refine", "export"].contains "refine") = true := rfl
  have hc5 : (["refine", "export"].contains "export") = true := rfl
  simp only [regenerateArticle, hTopic, Option.getD_none, executeRegeneration, regenerationBody,
    bindE, pureE, executeStage, executeStageFx, hc1, hc2, hc3, hc4, hc5,
    Bool.false_and, Bool.false_eq_true, if_false, if_true, hRefine, hExport,
    List.append_nil]
  refine ⟨_, rfl, ?_, ?_, ?_, ?_, ?_⟩
  · exact ⟨_, rfl, rfl, rfl⟩
  · simp [invokedStages, updateRunStatus, updateStageStatus]
  · simp [savedArticles, updateRunStatus, updateStageStatus]
  · rfl
  · simp only [updateRunStatus, updateStageStatus, regenStages, updateFirstStage, setStage]
    rfl

/-- C10 witness: the theorem applied to the concrete article fixture and
promptly-succeeding collaborators. -/
theorem c10_regenerate_default_witness :
    (regenStages ["refine", "export"]).map (fun g => (g.stage, g.status)) =
      [("research", .cancelled), ("outline", .cancelled), ("draft", .cancelled),
       ("refine", .pending), ("export", .pending)] ∧
    ∃ s, regenerateArticle none 9 storeFix okAgentsFix "r2" "a1" "t1" "1.0.0"
        (some oldArticleFix) none = .ok ("r2", s, .ok ()) ∧
      (∃ r0, s.events.head? = some (.save r0) ∧
        r0.stages = regenStages ["refine", "export"] ∧ r0.article_id = some "a1") ∧
      invokedStages s.events = ["refine", "export"] ∧
      savedArticles s.events =
        [{ oldArticleFix with content := some "refined", seo := some "seo",
                              updated_at := some 9 }] ∧
      s.run.status = .completed ∧
      s.run.stages.map (fun g => g.status) =
        [.cancelled, .cancelled, .cancelled, .completed, .completed] :=
  c10_regenerate_default none 9 storeFix okAgentsFix "r2" "a1" "t1" "1.0.0"
    oldArticleFix topicFix ("refined", "seo") rfl rfl (fun a f => rfl)

theorem mem_invokedStages {nm : String} {evs : List StoreEvent}
    (h : StoreEvent.invoke nm ∈ evs) : nm ∈ invokedStages evs :=
  List.mem_filterMap.mpr ⟨_, h, rfl⟩

theorem mem_savedStageStatuses {r : ArticleRun} {evs : List StoreEvent}
    (h : StoreEvent.save r ∈ evs) :
    r.stages.map (fun g => g.status) ∈ savedStageStatuses evs :=
  List.mem_filterMap.mpr ⟨_, h, rfl⟩

theorem status_of_get? {l : List GenerationStage} {j : Nat} {g : GenerationStage}
    {st : StageStatus} (h : l.get? j = some g)
    (hp : (l.get? j).map (fun x => x.status) = some st) : g.status = st := by
  rw [h] at hp
  simpa using hp

theorem stageStatusAt_lt {r : ArticleRun} {k : Nat} {st : StageStatus}
    (h : stageStatusAt r k = some st) : k < r.stages.length := by
  rw [stageStatusAt] at h
  cases hg : r.stages.get? k with
  | none => rw [hg] at h; cases h
  | some g =>
    obtain ⟨hlt, -⟩ := List.get?_eq_some.mp hg
    exact hlt

set_option maxHeartbeats 3000000 in
/-- C1: for every run started by `generateArticle`, if stage k fails
(by a rejection or its timeout), then the run record ends with
`status = failed` and the error set, no stage after k in pipeline order
(by index) ever transitions out of `pending` — neither in the final
record nor in any record flushed to the store during the run — and no
later stage function is invoked. -/
theorem c1_failure_halts (cfg : Option Nat) (now : Nat) (store : TopicStore)
    (agents : Agents) (runId articleId topicId version : String)
    (options : GenerationOptions) (rid : String) (s : OrchState)
    (bg : Except String Unit) (k : Nat)
    (hg : generateArticle cfg now store agents runId articleId topicId version options =
      .ok (rid, s, bg))
    (hk : stageStatusAt s.run k = some .failed) :
    s.run.status = .failed ∧ s.run.error.isSome = true ∧
    ∀ j, k < j →
      (∀ g, s.run.stages.get? j = some g → g.status = .pending) ∧
      (∀ nm, stageNames.get? j = some nm → StoreEvent.invoke nm ∉ s.events) ∧
      (∀ row ∈ savedStageStatuses s.events, ∀ st, row.get? j = some st →
        st = .pending) := by
  cases hload : loadTopic store topicId version with
  | error e => simp [generateArticle, hload] at hg
  | ok topic =>
    simp only [generateArticle, hload, executeGeneration, generationBody, researchStep,
      exportStep, bindE, pureE, executeStage, executeStageFx, List.append_nil] at hg
    by_cases hre : (!options.skipResearch && topic.research.enabled) = true
    all_goals first
      | rw [if_pos hre] at hg
      | rw [if_neg hre] at hg
    all_goals try
      (rcases hr0 : raced (cfg.getD 300000) "research" (agents.conductResearch topic)
          with e0 | r0 <;>
        simp only [hr0] at hg)
    all_goals try first
      | (rcases hr1 : raced (cfg.getD 300000) "outline"
            (agents.generateOutline topic (some r0)) with e1 | o1 <;>
          simp only [hr1] at hg)
      | (rcases hr1 : raced (cfg.getD 300000) "outline"
            (agents.generateOutline topic none) with e1 | o1 <;>
          simp only [hr1] at hg)
    all_goals try first
      | (rcases hr2 : raced (cfg.getD 300000) "draft"
            (agents.generateDraft topic (some o1) (some r0)) with e2 | d2 <;>
          simp only [hr2] at hg)
      | (rcases hr2 : raced (cfg.getD 300000) "draft"
            (agents.generateDraft topic (some o1) none) with e2 | d2 <;>
          simp only [hr2] at hg)
    all_goals try first
      | (rcases hr3 : raced (cfg.getD 300000) "refine"
            (agents.refineAndOptimize topic (some d2) r0.sources) with e3 | rc3 <;>
          simp only [hr3] at hg)
      | (rcases hr3 : raced (cfg.getD 300000) "refine"
            (agents.refineAndOptimize topic (some d2) []) with e3 | rc3 <;>
          simp only [hr3] at hg)
    all_goals try first
      | (rcases hr4 : raced (cfg.getD 300000) "export"
            (agents.exportRun
              { id := articleId, topic_id := topic.id, topic_version := topic.version
                status := "published", citations := r0.sources, outline := some o1
                content := some rc3.1, seo := some rc3.2
                created_at := now, updated_at := some now }
              (if (!options.dryRun && options.saveOutput.getD true) = true then
                topic.output.formats else [])) with e4 | u4 <;>
          simp only [hr4] at hg)
      | (rcases hr4 : raced (cfg.getD 300000) "export"
            (agents.exportRun
              { id := articleId, topic_id := topic.id, topic_version := topic.version
                status := "published", citations := [], outline := some o1
                content := some rc3.1, seo := some rc3.2
                created_at := now, updated_at := some now }
              (if (!options.dryRun && options.saveOutput.getD true) = true then
                topic.output.formats else [])) with e4 | u4 <;>
          simp only [hr4] at hg)
    all_goals
      simp only [Except.ok.injEq, Prod.mk.injEq] at hg
    all_goals
      obtain ⟨rfl, rfl, rfl⟩ := hg
    all_goals
      have hk5 : k < 5 := (stageStatusAt_lt hk).trans_eq rfl
    all_goals
      interval_cases k <;>
      first
        | (exfalso
           first
             | (simp [stageStatusAt, updateRunStatus, updateStageStatus,
                  updateFirstStage, setStage, initialStages] at hk
                all_goals done)
             | (cases hsk : options.skipResearch <;>
                  simp [hsk, stageStatusAt, updateRunStatus, updateStageStatus,
                    updateFirstStage, setStage, initialStages] at hk
                all_goals done))
        | (refine ⟨rfl, rfl, ?_⟩
           intro j hj
           refine ⟨?_, ?_, ?_⟩
           · intro g hgj
             obtain ⟨hjlt, -⟩ := List.get?_eq_some.mp hgj
             have hj5 : j < 5 := hjlt.trans_eq rfl
             interval_cases j <;> exact status_of_get? hgj rfl
           · intro nm hnm hmem
             have hmem2 := mem_invokedStages hmem
             simp [invokedStages, updateRunStatus, updateStageStatus] at hmem2
             obtain ⟨hjlt, -⟩ := List.get?_eq_some.mp hnm
             have hj5 : j < 5 := hjlt.trans_eq rfl
             interval_cases j <;> simp [stageNames] at hnm <;>
               subst hnm <;> simp_all
           · intro row hrow st hst
             obtain ⟨hjlt, -⟩ := List.get?_eq_some.mp hst
             simp [savedStageStatuses, updateRunStatus, updateStageStatus,
               updateFirstStage, setStage, initialStages] at hrow
             repeat' rcases hrow with rfl | hrow
             all_goals try subst hrow
             all_goals
               (have hj5 : j < 5 := hjlt.trans_eq rfl
                interval_cases j <;> simp_all))

/-- Witness for C1: on the concrete run where the outline agent rejects
with `boom`, the outline stage (index 1) ends `failed`, the run is marked
`failed` with an error recorded, and every later stage stays `pending`,
is never invoked, and is `pending` in every persisted snapshot. -/
theorem c1_failure_halts_witness :
    (generateArticle none 7 storeFix boomAgentsFix "r1" "a1" "t1" "1.0.0" optsFix =
      .ok ("r1", c1StateFix, .error "boom")) ∧
    stageStatusAt c1StateFix.run 1 = some .failed ∧
    (c1StateFix.run.status = .failed ∧ c1StateFix.run.error.isSome = true ∧
      ∀ j, 1 < j →
        (∀ g, c1StateFix.run.stages.get? j = some g → g.status = .pending) ∧
        (∀ nm, stageNames.get? j = some nm → StoreEvent.invoke nm ∉ c1StateFix.events) ∧
        (∀ row ∈ savedStageStatuses c1StateFix.events, ∀ st, row.get? j = some st →
          st = .pending)) :=
  ⟨rfl, rfl,
    c1_failure_halts none 7 storeFix boomAgentsFix "r1" "a1" "t1" "1.0.0" optsFix
      "r1" c1StateFix (.error "boom") 1 rfl rfl⟩
